import Mathlib

/-!
# Verification of the polymarket trading agent's market-data and signal core

Shallow embedding of the Rust sources (`src/services/binance.rs`,
`src/services/trade.rs`, `src/services/signal.rs`, `src/services/polymarket.rs`,
`src/services/price_scraper.rs`).  Exact decimal prices and quantities
(`rust_decimal::Decimal`) and the `f64` configuration values are embedded as
rationals; `u64`/`i64` sequence numbers and timestamps are embedded as `ℕ`/`ℤ`
(the sole `u64 → i64` cast in the risk check is modelled explicitly).
`BTreeMap<Decimal, Decimal>` price ladders are embedded as finite-support
functions `ℚ → Option ℚ`; the map operations used by the code (insert, remove,
lookup, emptiness) are all pointwise, so this is a faithful view of the map's
key-value contents.
-/

/-- A price ladder: price → quantity, `none` when the level is absent.
Embeds `BTreeMap<Decimal, Decimal>` by its key-value contents. -/
abbrev Levels : Type := ℚ → Option ℚ

/-- The empty ladder (`BTreeMap::new` / `clear`). -/
def Levels.empty : Levels := fun _ => none

/-- Embeds `map.insert(price, qty)`. -/
def Levels.insert (m : Levels) (p q : ℚ) : Levels :=
  fun x => if x = p then some q else m x

/-- Embeds `map.remove(&price)`. -/
def Levels.remove (m : Levels) (p : ℚ) : Levels :=
  fun x => if x = p then none else m x

/-- One iteration of the per-level loop in `OrderBook::apply_diff`
(binance.rs lines 113-131): remove the price when the quantity is zero,
otherwise overwrite it. -/
def Levels.applyDiffEntry (m : Levels) (e : ℚ × ℚ) : Levels :=
  if e.2 = 0 then m.remove e.1 else m.insert e.1 e.2

/-- The whole per-side loop of `OrderBook::apply_diff`. -/
def Levels.applyDiffEntries (m : Levels) (es : List (ℚ × ℚ)) : Levels :=
  es.foldl Levels.applyDiffEntry m

/-- One iteration of the per-level loop in `OrderBook::apply_snapshot`
(binance.rs lines 67-81): insert only strictly positive quantities. -/
def Levels.applySnapshotEntry (m : Levels) (e : ℚ × ℚ) : Levels :=
  if 0 < e.2 then m.insert e.1 e.2 else m

/-- The whole per-side loop of `OrderBook::apply_snapshot`. -/
def Levels.applySnapshotEntries (m : Levels) (es : List (ℚ × ℚ)) : Levels :=
  es.foldl Levels.applySnapshotEntry m

/-- Embeds `DepthSnapshot` (binance.rs lines 15-21) with price/qty strings already
parsed to exact decimals. -/
structure DepthSnapshot where
  last_update_id : ℕ
  bids : List (ℚ × ℚ)
  asks : List (ℚ × ℚ)

/-- Embeds `DepthDiff` (binance.rs lines 24-43) with price/qty strings already parsed;
the unused metadata fields (`e`, `E`, `s`) are elided. -/
structure DepthDiff where
  first_update_id : ℕ
  final_update_id : ℕ
  prev_final_update_id : Option ℕ
  bids : List (ℚ × ℚ)
  asks : List (ℚ × ℚ)

/-- Embeds `OrderBook` (binance.rs lines 45-51); the `initialized` field is
named `initFlag` here. -/
structure OrderBook where
  bids : Levels
  asks : Levels
  last_update_id : ℕ
  initFlag : Bool

/-- Embeds `OrderBook::new` (binance.rs lines 54-61). -/
def OrderBook.new : OrderBook :=
  { bids := Levels.empty, asks := Levels.empty, last_update_id := 0, initFlag := false }

/-- Embeds `OrderBook::apply_snapshot` (binance.rs lines 63-86): clear both sides,
insert the positive-quantity levels, adopt the snapshot's id, mark initialized. -/
def OrderBook.apply_snapshot (_b : OrderBook) (s : DepthSnapshot) : OrderBook :=
  { bids := Levels.applySnapshotEntries Levels.empty s.bids
    asks := Levels.applySnapshotEntries Levels.empty s.asks
    last_update_id := s.last_update_id
    initFlag := true }

/-- The mutation part of `OrderBook::apply_diff` once the sequence checks have
passed (binance.rs lines 113-134). -/
def OrderBook.applyDiffBody (b : OrderBook) (d : DepthDiff) : OrderBook :=
  { bids := b.bids.applyDiffEntries d.bids
    asks := b.asks.applyDiffEntries d.asks
    last_update_id := d.final_update_id
    initFlag := b.initFlag }

/-- Embeds `OrderBook::apply_diff` (binance.rs lines 88-135).  Returns the `Ok(bool)`
result paired with the resulting book: `false` means "sequence problem, caller
must resync"; `true` without mutation is the "already processed" acceptance. -/
def OrderBook.apply_diff (b : OrderBook) (d : DepthDiff) : Bool × OrderBook :=
  if b.initFlag = false then (false, b)
  else
    match d.prev_final_update_id with
    | some pu =>
        if pu ≠ b.last_update_id then (false, b)
        else (true, b.applyDiffBody d)
    | none =>
        if b.last_update_id + 1 < d.first_update_id then (false, b)
        else if d.final_update_id < b.last_update_id + 1 then (true, b)
        else (true, b.applyDiffBody d)

/-- One iteration of the message loop of `BinanceBookService::run_connection`
(binance.rs lines 332-389) for a parsed diff, given the snapshot's
`lastUpdateId`: diffs with `final_update_id ≤ snapU` are skipped; otherwise
`apply_diff` runs, and an `Ok(false)` result sets `needs_resync`, which resets
the book to `OrderBook::new` (lines 382-386). -/
def runConnectionStep (snapU : ℕ) (b : OrderBook) (d : DepthDiff) : OrderBook :=
  if d.final_update_id ≤ snapU then b
  else
    match b.apply_diff d with
    | (true, b2) => b2
    | (false, _) => OrderBook.new

/-- The value the diff assigns at one price: `none` when the last diff entry
for that price has quantity zero (removal), the last quantity otherwise. -/
def diffValueAt (es : List (ℚ × ℚ)) (x : ℚ) (old : Option ℚ) : Option ℚ :=
  match (es.filter (fun e => e.1 == x)).getLast? with
  | some e => if e.2 = 0 then none else some e.2
  | none => old

/-- Pointwise description of the per-side diff loop: the last diff entry for a
price wins; a price untouched by the diff keeps its old quantity. -/
theorem Levels.applyDiffEntries_apply (es : List (ℚ × ℚ)) (m : Levels) (x : ℚ) :
    Levels.applyDiffEntries m es x = diffValueAt es x (m x) := by
  induction es generalizing m with
  | nil => rfl
  | cons e es ih =>
    have hstep : Levels.applyDiffEntries m (e :: es) =
        Levels.applyDiffEntries (Levels.applyDiffEntry m e) es := rfl
    rw [hstep, ih]
    by_cases hx : e.1 = x
    · have hf : (e :: es).filter (fun e2 => e2.1 == x) =
          e :: es.filter (fun e2 => e2.1 == x) := by
        simp [List.filter_cons, hx]
      unfold diffValueAt
      rw [hf]
      cases hfe : es.filter (fun e2 => e2.1 == x) with
      | nil =>
        simp only [List.getLast?_singleton, List.getLast?_nil]
        unfold Levels.applyDiffEntry Levels.remove Levels.insert
        by_cases hq : e.2 = 0 <;> simp [hq, hx]
      | cons a l =>
        rw [List.getLast?_cons_cons]
        cases h2 : (a :: l).getLast? with
        | some e2 => rfl
        | none => exact absurd (List.getLast?_eq_none_iff.mp h2) (by simp)
    · have hf : (e :: es).filter (fun e2 => e2.1 == x) =
          es.filter (fun e2 => e2.1 == x) := by
        simp [List.filter_cons, hx]
      unfold diffValueAt
      rw [hf]
      cases hfe : (es.filter (fun e2 => e2.1 == x)).getLast? with
      | some e2 => rfl
      | none =>
        have hne : ¬ x = e.1 := fun h => hx h.symm
        unfold Levels.applyDiffEntry Levels.remove Levels.insert
        by_cases hq : e.2 = 0 <;> simp [hq, hne]

/-- Re-applying the same per-side diff loop is a no-op: the last entry per
price determines the level either way. -/
theorem Levels.applyDiffEntries_idem (m : Levels) (es : List (ℚ × ℚ)) :
    Levels.applyDiffEntries (Levels.applyDiffEntries m es) es =
      Levels.applyDiffEntries m es := by
  funext x
  rw [Levels.applyDiffEntries_apply, Levels.applyDiffEntries_apply]
  unfold diffValueAt
  cases (es.filter (fun e => e.1 == x)).getLast? <;> rfl

/-- The diff-application body is idempotent on the whole book. -/
theorem OrderBook.applyDiffBody_idem (b : OrderBook) (d : DepthDiff) :
    (b.applyDiffBody d).applyDiffBody d = b.applyDiffBody d := by
  simp [OrderBook.applyDiffBody, Levels.applyDiffEntries_idem]

/-- C1.  After a snapshot with `lastUpdateId = U` has been applied, the message
loop of `run_connection` treats an incoming diff as follows: a diff with
`final_update_id ≤ U` is discarded and the book is unchanged; a (spot-variant)
diff with `final_update_id > U` and `first_update_id = U + 1` is accepted by
`apply_diff` and applied, leaving `last_update_id = final_update_id`; a
(spot-variant) diff with `final_update_id > U` and `first_update_id > U + 1`
triggers a resync, resetting the book to the uninitialized `OrderBook::new`. -/
theorem claim_C1 (b0 : OrderBook) (s : DepthSnapshot) (d : DepthDiff) :
    (d.final_update_id ≤ s.last_update_id →
      runConnectionStep s.last_update_id (b0.apply_snapshot s) d = b0.apply_snapshot s) ∧
    (d.prev_final_update_id = none → s.last_update_id < d.final_update_id →
      d.first_update_id = s.last_update_id + 1 →
      ((b0.apply_snapshot s).apply_diff d).1 = true ∧
      runConnectionStep s.last_update_id (b0.apply_snapshot s) d =
        ((b0.apply_snapshot s).apply_diff d).2 ∧
      (runConnectionStep s.last_update_id (b0.apply_snapshot s) d).last_update_id =
        d.final_update_id) ∧
    (d.prev_final_update_id = none → s.last_update_id < d.final_update_id →
      s.last_update_id + 1 < d.first_update_id →
      runConnectionStep s.last_update_id (b0.apply_snapshot s) d = OrderBook.new ∧
      OrderBook.new.initFlag = false) := by
  refine ⟨?_, ?_, ?_⟩
  · intro hle
    unfold runConnectionStep
    rw [if_pos hle]
  · intro hpu hgt hfirst
    have hinit : (b0.apply_snapshot s).initFlag = true := rfl
    have hlast : (b0.apply_snapshot s).last_update_id = s.last_update_id := rfl
    have happly : (b0.apply_snapshot s).apply_diff d =
        (true, (b0.apply_snapshot s).applyDiffBody d) := by
      unfold OrderBook.apply_diff
      rw [hinit]
      simp only [Bool.true_eq_false, if_false, hpu, hlast]
      rw [if_neg (by omega), if_neg (by omega)]
    refine ⟨by rw [happly], ?_, ?_⟩
    · unfold runConnectionStep
      rw [if_neg (by omega), happly]
    · unfold runConnectionStep
      rw [if_neg (by omega), happly]
      rfl
  · intro hpu hgt hfirst
    have hinit : (b0.apply_snapshot s).initFlag = true := rfl
    have hlast : (b0.apply_snapshot s).last_update_id = s.last_update_id := rfl
    have happly : (b0.apply_snapshot s).apply_diff d = (false, b0.apply_snapshot s) := by
      unfold OrderBook.apply_diff
      rw [hinit]
      simp only [Bool.true_eq_false, if_false, hpu, hlast]
      rw [if_pos (by omega)]
    refine ⟨?_, rfl⟩
    unfold runConnectionStep
    rw [if_neg (by omega), happly]

/-- Witness for C1 on the spec's boundary scenario: snapshot `U = 100`, a diff
with `L = 100` is discarded, a diff with `F = 101, L = 101` is applied, and a
diff with `F = 102, L = 103` resets the book. -/
theorem claim_C1_witness :
    (runConnectionStep 100 (OrderBook.new.apply_snapshot ⟨100, [(100, 1)], [(101, 1)]⟩)
        ⟨95, 100, none, [(99, 2)], []⟩ =
      OrderBook.new.apply_snapshot ⟨100, [(100, 1)], [(101, 1)]⟩) ∧
    (((OrderBook.new.apply_snapshot ⟨100, [(100, 1)], [(101, 1)]⟩).apply_diff
        ⟨101, 101, none, [(100, 0)], []⟩).1 = true ∧
      runConnectionStep 100 (OrderBook.new.apply_snapshot ⟨100, [(100, 1)], [(101, 1)]⟩)
          ⟨101, 101, none, [(100, 0)], []⟩ =
        ((OrderBook.new.apply_snapshot ⟨100, [(100, 1)], [(101, 1)]⟩).apply_diff
            ⟨101, 101, none, [(100, 0)], []⟩).2 ∧
      (runConnectionStep 100 (OrderBook.new.apply_snapshot ⟨100, [(100, 1)], [(101, 1)]⟩)
          ⟨101, 101, none, [(100, 0)], []⟩).last_update_id = 101) ∧
    (runConnectionStep 100 (OrderBook.new.apply_snapshot ⟨100, [(100, 1)], [(101, 1)]⟩)
        ⟨102, 103, none, [(99, 2)], []⟩ = OrderBook.new ∧
      OrderBook.new.initFlag = false) := by
  refine ⟨?_, ?_, ?_⟩
  · exact (claim_C1 OrderBook.new ⟨100, [(100, 1)], [(101, 1)]⟩
      ⟨95, 100, none, [(99, 2)], []⟩).1 (by decide)
  · exact (claim_C1 OrderBook.new ⟨100, [(100, 1)], [(101, 1)]⟩
      ⟨101, 101, none, [(100, 0)], []⟩).2.1 rfl (by decide) (by decide)
  · exact (claim_C1 OrderBook.new ⟨100, [(100, 1)], [(101, 1)]⟩
      ⟨102, 103, none, [(99, 2)], []⟩).2.2 rfl (by decide) (by decide)

/-- C2 (amended).  Applying the same diff twice yields exactly the same book
state (bids, asks, `last_update_id`) as applying it once; for the spot variant
(no `prev_final_update_id`), whenever the first application was accepted the
second is accepted again via the "already processed" early return (`Ok(true)`,
no mutation). -/
theorem claim_C2 (b : OrderBook) (d : DepthDiff) (hinit : b.initFlag = true) :
    ((b.apply_diff d).2.apply_diff d).2 = (b.apply_diff d).2 ∧
    (d.prev_final_update_id = none → (b.apply_diff d).1 = true →
      ((b.apply_diff d).2.apply_diff d).1 = true) := by
  cases hpu : d.prev_final_update_id with
  | some pu =>
    refine ⟨?_, fun hn => absurd hn (by simp)⟩
    by_cases h1 : pu = b.last_update_id
    · have happly : b.apply_diff d = (true, b.applyDiffBody d) := by
        unfold OrderBook.apply_diff
        rw [hinit]
        simp [hpu, h1]
      have hinit2 : (b.applyDiffBody d).initFlag = true := hinit
      by_cases h2 : pu = (b.applyDiffBody d).last_update_id
      · have happly2 : (b.applyDiffBody d).apply_diff d =
            (true, (b.applyDiffBody d).applyDiffBody d) := by
          unfold OrderBook.apply_diff
          rw [hinit2]
          simp [hpu, h2]
        have hidem := OrderBook.applyDiffBody_idem b d
        simp [happly, happly2, hidem]
      · have happly2 : (b.applyDiffBody d).apply_diff d = (false, b.applyDiffBody d) := by
          unfold OrderBook.apply_diff
          rw [hinit2]
          simp [hpu, h2]
        simp [happly, happly2]
    · have happly : b.apply_diff d = (false, b) := by
        unfold OrderBook.apply_diff
        rw [hinit]
        simp [hpu, h1]
      simp [happly]
  | none =>
    by_cases hgap : b.last_update_id + 1 < d.first_update_id
    · have happly : b.apply_diff d = (false, b) := by
        unfold OrderBook.apply_diff
        rw [hinit]
        simp only [Bool.true_eq_false, if_false, hpu]
        rw [if_pos hgap]
      refine ⟨by simp [happly], ?_⟩
      intro _ htrue
      simp [happly] at htrue
    · by_cases hproc : d.final_update_id < b.last_update_id + 1
      · have happly : b.apply_diff d = (true, b) := by
          unfold OrderBook.apply_diff
          rw [hinit]
          simp only [Bool.true_eq_false, if_false, hpu]
          rw [if_neg hgap, if_pos hproc]
        exact ⟨by simp [happly], fun _ _ => by simp [happly]⟩
      · have happly : b.apply_diff d = (true, b.applyDiffBody d) := by
          unfold OrderBook.apply_diff
          rw [hinit]
          simp only [Bool.true_eq_false, if_false, hpu]
          rw [if_neg hgap, if_neg hproc]
        have hinit2 : (b.applyDiffBody d).initFlag = true := hinit
        have hlast2 : (b.applyDiffBody d).last_update_id = d.final_update_id := rfl
        have happly2 : (b.applyDiffBody d).apply_diff d = (true, b.applyDiffBody d) := by
          unfold OrderBook.apply_diff
          rw [hinit2]
          simp only [Bool.true_eq_false, if_false, hpu, hlast2]
          rw [if_neg (by omega), if_pos (by omega)]
        exact ⟨by simp [happly, happly2], fun _ _ => by simp [happly, happly2]⟩

/-- Witness for C2 at a concrete spot diff: book from snapshot `U = 100`, diff
`F = 101, L = 102` applied twice. -/
theorem claim_C2_witness :
    (OrderBook.new.apply_snapshot ⟨100, [(100, 1)], [(101, 1)]⟩).initFlag = true ∧
    ((((OrderBook.new.apply_snapshot ⟨100, [(100, 1)], [(101, 1)]⟩).apply_diff
          ⟨101, 102, none, [(100, 0)], [(102, 3)]⟩).2.apply_diff
        ⟨101, 102, none, [(100, 0)], [(102, 3)]⟩).2 =
      ((OrderBook.new.apply_snapshot ⟨100, [(100, 1)], [(101, 1)]⟩).apply_diff
          ⟨101, 102, none, [(100, 0)], [(102, 3)]⟩).2) ∧
    ((((OrderBook.new.apply_snapshot ⟨100, [(100, 1)], [(101, 1)]⟩).apply_diff
          ⟨101, 102, none, [(100, 0)], [(102, 3)]⟩).2.apply_diff
        ⟨101, 102, none, [(100, 0)], [(102, 3)]⟩).1 = true) := by
  have h := claim_C2 (OrderBook.new.apply_snapshot ⟨100, [(100, 1)], [(101, 1)]⟩)
    ⟨101, 102, none, [(100, 0)], [(102, 3)]⟩ rfl
  exact ⟨rfl, h.1, h.2 rfl (by decide)⟩

/-- C2 counterexample.  For the variant carrying `prev_final_update_id`, the
second application of an applied diff is NOT "rejected as already-processed":
`apply_diff` returns `Ok(false)` (the sequence-mismatch signal that makes
`run_connection` resync), because `pu` no longer equals the updated
`last_update_id`.  Concretely: book at `last_update_id = 5`, diff with
`pu = 5`, `F = 6`, `L = 7` — the first application is accepted (`Ok(true)`),
the second returns `Ok(false)`. -/
theorem claim_C2_counterexample :
    ((OrderBook.new.apply_snapshot ⟨5, [(100, 1)], [(101, 1)]⟩).apply_diff
        ⟨6, 7, some 5, [(100, 2)], []⟩).1 = true ∧
    (((OrderBook.new.apply_snapshot ⟨5, [(100, 1)], [(101, 1)]⟩).apply_diff
          ⟨6, 7, some 5, [(100, 2)], []⟩).2.apply_diff
        ⟨6, 7, some 5, [(100, 2)], []⟩).1 = false := by
  exact ⟨by decide, by decide⟩

/-- C3.  For every initialized book and every diff that passes the sequence
check and is applied, the diff is accepted, each price named by the diff ends
up removed (last quantity zero) or overwritten (last quantity), prices not
named keep their old level, and `last_update_id` becomes the diff's
`final_update_id`. -/
theorem claim_C3 (b : OrderBook) (d : DepthDiff) (p : ℚ)
    (hinit : b.initFlag = true)
    (hseq : match d.prev_final_update_id with
      | some pu => pu = b.last_update_id
      | none => d.first_update_id ≤ b.last_update_id + 1 ∧
          b.last_update_id + 1 ≤ d.final_update_id) :
    (b.apply_diff d).1 = true ∧
    (b.apply_diff d).2.last_update_id = d.final_update_id ∧
    (b.apply_diff d).2.bids p = diffValueAt d.bids p (b.bids p) ∧
    (b.apply_diff d).2.asks p = diffValueAt d.asks p (b.asks p) := by
  have happly : b.apply_diff d = (true, b.applyDiffBody d) := by
    unfold OrderBook.apply_diff
    rw [hinit]
    cases hpu : d.prev_final_update_id with
    | some pu =>
      rw [hpu] at hseq
      simp [hseq]
    | none =>
      rw [hpu] at hseq
      simp only [Bool.true_eq_false, if_false]
      rw [if_neg (by omega), if_neg (by omega)]
  rw [happly]
  exact ⟨rfl, rfl, Levels.applyDiffEntries_apply d.bids b.bids p,
    Levels.applyDiffEntries_apply d.asks b.asks p⟩

/-- Witness for C3: spot diff `F = 101, L = 102` on the snapshot book
`U = 100`, removal of the bid at 100 checked at price 100. -/
theorem claim_C3_witness :
    ((OrderBook.new.apply_snapshot ⟨100, [(100, 1)], [(101, 1)]⟩).apply_diff
        ⟨101, 102, none, [(100, 0)], [(102, 3)]⟩).1 = true ∧
    ((OrderBook.new.apply_snapshot ⟨100, [(100, 1)], [(101, 1)]⟩).apply_diff
        ⟨101, 102, none, [(100, 0)], [(102, 3)]⟩).2.last_update_id = 102 ∧
    ((OrderBook.new.apply_snapshot ⟨100, [(100, 1)], [(101, 1)]⟩).apply_diff
          ⟨101, 102, none, [(100, 0)], [(102, 3)]⟩).2.bids 100 =
      diffValueAt [(100, 0)] 100
        ((OrderBook.new.apply_snapshot ⟨100, [(100, 1)], [(101, 1)]⟩).bids 100) ∧
    ((OrderBook.new.apply_snapshot ⟨100, [(100, 1)], [(101, 1)]⟩).apply_diff
          ⟨101, 102, none, [(100, 0)], [(102, 3)]⟩).2.asks 100 =
      diffValueAt [(102, 3)] 100
        ((OrderBook.new.apply_snapshot ⟨100, [(100, 1)], [(101, 1)]⟩).asks 100) := by
  exact claim_C3 (OrderBook.new.apply_snapshot ⟨100, [(100, 1)], [(101, 1)]⟩)
    ⟨101, 102, none, [(100, 0)], [(102, 3)]⟩ 100 rfl (by decide)

/-- "Uncrossed" as the spec states it: every resting bid price is strictly
below every resting ask price (equivalently `max(bids) < min(asks)` whenever
both sides are non-empty). -/
def Uncrossed (b : OrderBook) : Prop :=
  ∀ p q : ℚ, b.bids p ≠ none → b.asks q ≠ none → p < q

/-- "No zero or negative quantity stored" as the spec states it. -/
def PosLevelsOnly (b : OrderBook) : Prop :=
  ∀ p q : ℚ, (b.bids p = some q → 0 < q) ∧ (b.asks p = some q → 0 < q)

/-- All quantities carried by a diff are nonnegative. -/
def DepthDiff.nonneg (d : DepthDiff) : Prop :=
  (∀ e ∈ d.bids, 0 ≤ e.2) ∧ (∀ e ∈ d.asks, 0 ≤ e.2)

/-- C4 counterexample.  A sequence-valid diff (`F = 101, L = 101` on the
snapshot book `U = 100`, bids `[(100, 1)]`, asks `[(101, 1)]`) that inserts a
bid at price 200 with quantity 5 and a bid at price 50 with quantity −1 is
accepted and applied, after which the book is crossed (a bid at 200 rests
against an ask at 101) and stores a negative quantity: `apply_diff` performs
no crossing check and inserts any nonzero quantity as-is. -/
theorem claim_C4_counterexample :
    ((OrderBook.new.apply_snapshot ⟨100, [(100, 1)], [(101, 1)]⟩).apply_diff
        ⟨101, 101, none, [(200, 5), (50, -1)], []⟩).1 = true ∧
    (runConnectionStep 100 (OrderBook.new.apply_snapshot ⟨100, [(100, 1)], [(101, 1)]⟩)
        ⟨101, 101, none, [(200, 5), (50, -1)], []⟩).bids 200 = some 5 ∧
    (runConnectionStep 100 (OrderBook.new.apply_snapshot ⟨100, [(100, 1)], [(101, 1)]⟩)
        ⟨101, 101, none, [(200, 5), (50, -1)], []⟩).asks 101 = some 1 ∧
    (runConnectionStep 100 (OrderBook.new.apply_snapshot ⟨100, [(100, 1)], [(101, 1)]⟩)
        ⟨101, 101, none, [(200, 5), (50, -1)], []⟩).bids 50 = some (-1) ∧
    ¬ Uncrossed (runConnectionStep 100
        (OrderBook.new.apply_snapshot ⟨100, [(100, 1)], [(101, 1)]⟩)
        ⟨101, 101, none, [(200, 5), (50, -1)], []⟩) ∧
    ¬ PosLevelsOnly (runConnectionStep 100
        (OrderBook.new.apply_snapshot ⟨100, [(100, 1)], [(101, 1)]⟩)
        ⟨101, 101, none, [(200, 5), (50, -1)], []⟩) := by
  refine ⟨by decide, by decide, by decide, by decide, ?_, ?_⟩
  · intro h
    have h2 := h 200 101 (by decide) (by decide)
    norm_num at h2
  · intro h
    have h2 := (h 50 (-1)).1 (by decide)
    norm_num at h2

/-- The last element of a list, when it exists, is a member. -/
theorem getLast?_mem_of_eq {α : Type} {l : List α} {a : α}
    (h : l.getLast? = some a) : a ∈ l := by
  obtain ⟨hne, heq⟩ := List.mem_getLast?_eq_getLast (Option.mem_def.mpr h)
  rw [heq]
  exact List.getLast_mem hne

/-- The snapshot loop only stores positive quantities. -/
theorem Levels.applySnapshotEntries_pos (es : List (ℚ × ℚ)) (m : Levels)
    (hm : ∀ p q, m p = some q → 0 < q) :
    ∀ p q, Levels.applySnapshotEntries m es p = some q → 0 < q := by
  induction es generalizing m with
  | nil => exact hm
  | cons e es ih =>
    have hstep : Levels.applySnapshotEntries m (e :: es) =
        Levels.applySnapshotEntries (Levels.applySnapshotEntry m e) es := rfl
    rw [hstep]
    refine ih _ ?_
    intro p q hpq
    unfold Levels.applySnapshotEntry Levels.insert at hpq
    by_cases he : 0 < e.2
    · rw [if_pos he] at hpq
      by_cases hp : p = e.1
      · rw [if_pos hp] at hpq
        cases hpq
        exact he
      · rw [if_neg hp] at hpq
        exact hm p q hpq
    · rw [if_neg he] at hpq
      exact hm p q hpq

/-- The diff loop only stores positive quantities when the diff's quantities
are nonnegative (zero quantities remove the level instead of being stored). -/
theorem Levels.applyDiffEntries_pos (es : List (ℚ × ℚ)) (m : Levels)
    (hes : ∀ e ∈ es, 0 ≤ e.2) (hm : ∀ p q, m p = some q → 0 < q) :
    ∀ p q, Levels.applyDiffEntries m es p = some q → 0 < q := by
  intro p q hpq
  rw [Levels.applyDiffEntries_apply] at hpq
  unfold diffValueAt at hpq
  cases hlast : (es.filter (fun e => e.1 == p)).getLast? with
  | some e =>
    rw [hlast] at hpq
    have hpq2 : (if e.2 = 0 then none else some e.2 : Option ℚ) = some q := hpq
    by_cases hz : e.2 = 0
    · rw [if_pos hz] at hpq2
      cases hpq2
    · rw [if_neg hz] at hpq2
      cases hpq2
      have hmem : e ∈ es := (List.mem_filter.mp (getLast?_mem_of_eq hlast)).1
      exact lt_of_le_of_ne (hes e hmem) (Ne.symm hz)
  | none =>
    rw [hlast] at hpq
    have hpq2 : m p = some q := hpq
    exact hm p q hpq2

/-- Helper: `apply_diff` either leaves the book unchanged or runs the diff body. -/
theorem apply_diff_snd_cases (b : OrderBook) (d : DepthDiff) :
    (b.apply_diff d).2 = b ∨ (b.apply_diff d).2 = b.applyDiffBody d := by
  unfold OrderBook.apply_diff
  by_cases hinit : b.initFlag = false
  · simp [hinit]
  · simp only [hinit, if_false]
    cases hpu : d.prev_final_update_id with
    | some pu =>
      by_cases h1 : pu ≠ b.last_update_id <;> simp [h1]
    | none =>
      by_cases h1 : b.last_update_id + 1 < d.first_update_id
      · simp [h1]
      · by_cases h2 : d.final_update_id < b.last_update_id + 1 <;> simp [h1, h2]

/-- Positivity of stored quantities, as an invariant of one step of the
connection loop. -/
theorem posLevelsOnly_runConnectionStep (snapU : ℕ) (b : OrderBook) (d : DepthDiff)
    (hb : PosLevelsOnly b) (hd : d.nonneg) :
    PosLevelsOnly (runConnectionStep snapU b d) := by
  have hbody : PosLevelsOnly (b.applyDiffBody d) := by
    intro p q
    constructor
    · exact fun h => Levels.applyDiffEntries_pos d.bids b.bids hd.1
        (fun p2 q2 h2 => (hb p2 q2).1 h2) p q h
    · exact fun h => Levels.applyDiffEntries_pos d.asks b.asks hd.2
        (fun p2 q2 h2 => (hb p2 q2).2 h2) p q h
  have hnew : PosLevelsOnly OrderBook.new := by
    intro p q
    constructor
    · intro h
      cases h
    · intro h
      cases h
  unfold runConnectionStep
  by_cases hle : d.final_update_id ≤ snapU
  · rw [if_pos hle]
    exact hb
  · rw [if_neg hle]
    have hcases := apply_diff_snd_cases b d
    cases hres : b.apply_diff d with
    | mk r b2 =>
      rw [hres] at hcases
      cases r
      · simp only [hres]
        exact hnew
      · simp only [hres]
        cases hcases with
        | inl h =>
          rw [show ((true, b2) : Bool × OrderBook).2 = b2 from rfl] at h
          rw [h]
          exact hb
        | inr h =>
          rw [show ((true, b2) : Bool × OrderBook).2 = b2 from rfl] at h
          rw [h]
          exact hbody

instance (d : DepthDiff) : Decidable d.nonneg :=
  inferInstanceAs (Decidable ((∀ e ∈ d.bids, 0 ≤ e.2) ∧ (∀ e ∈ d.asks, 0 ≤ e.2)))

/-- C4 (amended).  After applying a snapshot and then any sequence of diffs
through the connection loop, no zero quantity is stored, and — provided every
quantity carried by the diffs is nonnegative — no negative quantity is stored
either: every resting level's quantity is strictly positive.  (The
uncrossedness part of the original claim is refuted by
the accompanying counterexample: `apply_diff` performs no crossing check.) -/
theorem claim_C4 (b0 : OrderBook) (s : DepthSnapshot) (ds : List DepthDiff) (p q : ℚ)
    (hds : ∀ d ∈ ds, d.nonneg) :
    ((ds.foldl (runConnectionStep s.last_update_id) (b0.apply_snapshot s)).bids p =
        some q → 0 < q) ∧
    ((ds.foldl (runConnectionStep s.last_update_id) (b0.apply_snapshot s)).asks p =
        some q → 0 < q) := by
  have hsnap : PosLevelsOnly (b0.apply_snapshot s) := by
    intro p2 q2
    constructor
    · exact fun h => Levels.applySnapshotEntries_pos s.bids Levels.empty
        (fun _ _ h2 => by cases h2) p2 q2 h
    · exact fun h => Levels.applySnapshotEntries_pos s.asks Levels.empty
        (fun _ _ h2 => by cases h2) p2 q2 h
  have hfold : ∀ (ds2 : List DepthDiff) (b : OrderBook), PosLevelsOnly b →
      (∀ d ∈ ds2, d.nonneg) →
      PosLevelsOnly (ds2.foldl (runConnectionStep s.last_update_id) b) := by
    intro ds2
    induction ds2 with
    | nil => exact fun b hb _ => hb
    | cons d ds2 ih =>
      intro b hb hds2
      exact ih _ (posLevelsOnly_runConnectionStep s.last_update_id b d hb
          (hds2 d (List.mem_cons_self d ds2)))
        (fun d2 hd2 => hds2 d2 (List.mem_cons_of_mem d hd2))
  exact hfold ds (b0.apply_snapshot s) hsnap hds p q

/-- Witness for C4: snapshot `U = 100`, one applied diff adding bid `(99, 2)`
and removing bid `(100, 0)`; the stored bid at 99 and ask at 101 are positive. -/
theorem claim_C4_witness :
    ((([⟨101, 101, none, [(100, 0), (99, 2)], []⟩] :
          List DepthDiff).foldl (runConnectionStep 100)
        (OrderBook.new.apply_snapshot ⟨100, [(100, 1)], [(101, 1)]⟩)).bids 99 =
        some 2 → (0 : ℚ) < 2) ∧
    ((([⟨101, 101, none, [(100, 0), (99, 2)], []⟩] :
          List DepthDiff).foldl (runConnectionStep 100)
        (OrderBook.new.apply_snapshot ⟨100, [(100, 1)], [(101, 1)]⟩)).asks 99 =
        some 2 → (0 : ℚ) < 2) := by
  exact claim_C4 OrderBook.new ⟨100, [(100, 1)], [(101, 1)]⟩
    [⟨101, 101, none, [(100, 0), (99, 2)], []⟩] 99 2 (by decide)

/-- Embeds `TradeSide` (events/types.rs lines 122-125). -/
inductive TradeSide where
  | yes
  | no
deriving DecidableEq

/-- Embeds `TradingConfig` (config.rs lines 53-60); `f64` limits as exact rationals,
`stale_quote_threshold_ms : u64` as a natural number. -/
structure TradingConfig where
  default_size : ℚ
  max_size : ℚ
  max_price_yes : ℚ
  max_price_no : ℚ
  max_spread : ℚ
  stale_quote_threshold_ms : ℕ

/-- Embeds `TradingState` (trade.rs lines 38-44). -/
structure TradingState where
  kill_switch_active : Bool
  current_size : ℚ
  max_price_yes : ℚ
  max_price_no : ℚ

/-- Embeds `QuoteState` (polymarket.rs lines 50-61). -/
structure QuoteState where
  yes_bid : Option ℚ
  yes_bid_size : Option ℚ
  yes_ask : Option ℚ
  yes_ask_size : Option ℚ
  no_bid : Option ℚ
  no_bid_size : Option ℚ
  no_ask : Option ℚ
  no_ask_size : Option ℚ
  last_update_ms : ℤ

/-- The value `i64::MAX`. -/
def i64Max : ℤ := 2 ^ 63 - 1

/-- The `u64 → i64` `as` cast used on `stale_quote_threshold_ms`
(trade.rs line 201): wraps modulo `2^64` into the signed range. -/
def u64AsI64 (n : ℕ) : ℤ :=
  if n % 2 ^ 64 < 2 ^ 63 then ((n % 2 ^ 64 : ℕ) : ℤ) else ((n % 2 ^ 64 : ℕ) : ℤ) - 2 ^ 64

/-- Embeds `PolymarketService::get_staleness_ms` (polymarket.rs lines 201-207):
`i64::MAX` when no quote was ever received, elapsed milliseconds otherwise. -/
def get_staleness_ms (state : QuoteState) (nowMs : ℤ) : ℤ :=
  if state.last_update_ms = 0 then i64Max
  else nowMs - state.last_update_ms

/-- The rejection reasons of `TradeService::check_risk`, one constructor per
`format!` message, carrying the numbers the message interpolates. -/
inductive RejectReason where
  | killSwitch
  | sizeExceeded (size maxSize : ℚ)
  | staleQuote (staleMs : ℤ) (thresholdMs : ℕ)
  | priceExceeded (limitPrice maxPrice : ℚ)
  | spreadExceeded (spread maxSpread : ℚ)
deriving DecidableEq

/-- Embeds `RiskCheckResult` (trade.rs lines 57-61). -/
inductive RiskCheckResult where
  | allowed
  | rejected (reason : RejectReason)
deriving DecidableEq

/-- Embeds `TradeService::check_risk` (trade.rs lines 180-233).  The quote state and
wall clock stand in for `self.polymarket`; the staleness is computed through
`get_staleness_ms` exactly as the code does. -/
def check_risk (config : TradingConfig) (state : TradingState) (quotes : QuoteState)
    (nowMs : ℤ) (side : TradeSide) (size limit_price : ℚ) : RiskCheckResult :=
  if state.kill_switch_active then .rejected .killSwitch
  else if config.max_size < size then .rejected (.sizeExceeded size config.max_size)
  else
    let stale_ms := get_staleness_ms quotes nowMs
    if u64AsI64 config.stale_quote_threshold_ms < stale_ms then
      .rejected (.staleQuote stale_ms config.stale_quote_threshold_ms)
    else
      let bid := match side with
        | .yes => quotes.yes_bid
        | .no => quotes.no_bid
      let ask := match side with
        | .yes => quotes.yes_ask
        | .no => quotes.no_ask
      let max_price := match side with
        | .yes => state.max_price_yes
        | .no => state.max_price_no
      if max_price < limit_price then .rejected (.priceExceeded limit_price max_price)
      else
        match bid, ask with
        | some b, some a =>
            if config.max_spread < a - b then
              .rejected (.spreadExceeded (a - b) config.max_spread)
            else .allowed
        | _, _ => .allowed

/-- C5.  With the kill switch active, `check_risk` rejects with the
kill-switch reason for every side, size, limit price, quote state, wall
clock, and configuration. -/
theorem claim_C5 (config : TradingConfig) (state : TradingState) (quotes : QuoteState)
    (nowMs : ℤ) (side : TradeSide) (size limit_price : ℚ)
    (hkill : state.kill_switch_active = true) :
    check_risk config state quotes nowMs side size limit_price =
      .rejected .killSwitch := by
  unfold check_risk
  rw [hkill]
  rfl

/-- Witness for C5: kill switch on, every other check would pass. -/
theorem claim_C5_witness :
    check_risk ⟨10, 100, 95/100, 95/100, 1/10, 5000⟩ ⟨true, 10, 95/100, 95/100⟩
      ⟨some (1/2), none, some (52/100), none, none, none, none, none, 1000⟩
      1500 .yes 10 (1/2) = .rejected .killSwitch := by
  exact claim_C5 ⟨10, 100, 95/100, 95/100, 1/10, 5000⟩ ⟨true, 10, 95/100, 95/100⟩
    ⟨some (1/2), none, some (52/100), none, none, none, none, none, 1000⟩
    1500 .yes 10 (1/2) rfl

/-- C6.  The risk checks run in the fixed order kill switch, size, staleness,
per-side limit price, spread; the first failing check determines the rejection
reason, later checks being irrelevant.  (The concrete stale-quote scenario of
the spec is the witness below.) -/
theorem claim_C6 (config : TradingConfig) (state : TradingState) (quotes : QuoteState)
    (nowMs : ℤ) (side : TradeSide) (size limit_price : ℚ) :
    (state.kill_switch_active = true →
      check_risk config state quotes nowMs side size limit_price =
        .rejected .killSwitch) ∧
    (state.kill_switch_active = false → config.max_size < size →
      check_risk config state quotes nowMs side size limit_price =
        .rejected (.sizeExceeded size config.max_size)) ∧
    (state.kill_switch_active = false → size ≤ config.max_size →
      u64AsI64 config.stale_quote_threshold_ms < get_staleness_ms quotes nowMs →
      check_risk config state quotes nowMs side size limit_price =
        .rejected (.staleQuote (get_staleness_ms quotes nowMs)
          config.stale_quote_threshold_ms)) ∧
    (state.kill_switch_active = false → size ≤ config.max_size →
      get_staleness_ms quotes nowMs ≤ u64AsI64 config.stale_quote_threshold_ms →
      (match side with
        | .yes => state.max_price_yes
        | .no => state.max_price_no) < limit_price →
      check_risk config state quotes nowMs side size limit_price =
        .rejected (.priceExceeded limit_price
          (match side with
            | .yes => state.max_price_yes
            | .no => state.max_price_no))) ∧
    (∀ b a : ℚ, state.kill_switch_active = false → size ≤ config.max_size →
      get_staleness_ms quotes nowMs ≤ u64AsI64 config.stale_quote_threshold_ms →
      limit_price ≤ (match side with
        | .yes => state.max_price_yes
        | .no => state.max_price_no) →
      (match side with
        | .yes => quotes.yes_bid
        | .no => quotes.no_bid) = some b →
      (match side with
        | .yes => quotes.yes_ask
        | .no => quotes.no_ask) = some a →
      config.max_spread < a - b →
      check_risk config state quotes nowMs side size limit_price =
        .rejected (.spreadExceeded (a - b) config.max_spread)) := by
  refine ⟨?_, ?_, ?_, ?_, ?_⟩
  · intro hk
    unfold check_risk
    rw [hk]
    rfl
  · intro hk hsz
    unfold check_risk
    rw [hk]
    simp only [Bool.false_eq_true, if_false]
    rw [if_pos hsz]
  · intro hk hsz hstale
    unfold check_risk
    rw [hk]
    simp only [Bool.false_eq_true, if_false]
    rw [if_neg (not_lt.mpr hsz), if_pos hstale]
  · intro hk hsz hstale hprice
    cases side <;>
      · unfold check_risk
        rw [hk]
        simp only [Bool.false_eq_true, if_false]
        rw [if_neg (not_lt.mpr hsz), if_neg (not_lt.mpr hstale)]
        rw [if_pos hprice]
  · intro b a hk hsz hstale hprice hbid hask hspread
    cases side with
    | yes =>
      have hbid2 : quotes.yes_bid = some b := hbid
      have hask2 : quotes.yes_ask = some a := hask
      have hprice2 : limit_price ≤ state.max_price_yes := hprice
      unfold check_risk
      rw [hk]
      simp only [Bool.false_eq_true, if_false]
      rw [if_neg (not_lt.mpr hsz), if_neg (not_lt.mpr hstale),
        if_neg (not_lt.mpr hprice2), hbid2, hask2]
      show (if config.max_spread < a - b then
          RiskCheckResult.rejected (RejectReason.spreadExceeded (a - b) config.max_spread)
        else RiskCheckResult.allowed) = _
      rw [if_pos hspread]
    | no =>
      have hbid2 : quotes.no_bid = some b := hbid
      have hask2 : quotes.no_ask = some a := hask
      have hprice2 : limit_price ≤ state.max_price_no := hprice
      unfold check_risk
      rw [hk]
      simp only [Bool.false_eq_true, if_false]
      rw [if_neg (not_lt.mpr hsz), if_neg (not_lt.mpr hstale),
        if_neg (not_lt.mpr hprice2), hbid2, hask2]
      show (if config.max_spread < a - b then
          RiskCheckResult.rejected (RejectReason.spreadExceeded (a - b) config.max_spread)
        else RiskCheckResult.allowed) = _
      rw [if_pos hspread]

/-- Witness for C6, the spec's stale-quote scenario: kill switch off, size
10 ≤ max 100, staleness 6000 ms against threshold 5000 ms — rejected with the
staleness reason (quote received at 1000 ms, checked at 7000 ms). -/
theorem claim_C6_witness :
    check_risk ⟨10, 100, 95/100, 95/100, 1/10, 5000⟩ ⟨false, 10, 95/100, 95/100⟩
      ⟨some (1/2), none, some (52/100), none, none, none, none, none, 1000⟩
      7000 .yes 10 (1/2) = .rejected (.staleQuote 6000 5000) := by
  have h := (claim_C6 ⟨10, 100, 95/100, 95/100, 1/10, 5000⟩ ⟨false, 10, 95/100, 95/100⟩
    ⟨some (1/2), none, some (52/100), none, none, none, none, none, 1000⟩
    7000 .yes 10 (1/2)).2.2.1 rfl (by norm_num) (by decide)
  rw [h]
  rfl

/-- C10.  If no prediction-market quote was ever received
(`last_update_ms = 0`), `get_staleness_ms` returns `i64::MAX` instead of an
elapsed time; consequently, for every finite positive stale-quote threshold
(positive and below `i64::MAX`), any order that survives the kill-switch and
size checks is rejected by the staleness test. -/
theorem claim_C10 (config : TradingConfig) (state : TradingState) (quotes : QuoteState)
    (nowMs : ℤ) (side : TradeSide) (size limit_price : ℚ)
    (hnever : quotes.last_update_ms = 0) :
    get_staleness_ms quotes nowMs = i64Max ∧
    (state.kill_switch_active = false → size ≤ config.max_size →
      0 < config.stale_quote_threshold_ms →
      config.stale_quote_threshold_ms < 2 ^ 63 - 1 →
      check_risk config state quotes nowMs side size limit_price =
        .rejected (.staleQuote i64Max config.stale_quote_threshold_ms)) := by
  have hstale : get_staleness_ms quotes nowMs = i64Max := by
    unfold get_staleness_ms
    rw [if_pos hnever]
  refine ⟨hstale, ?_⟩
  intro hk hsz _hpos hfin
  have hcast : u64AsI64 config.stale_quote_threshold_ms =
      (config.stale_quote_threshold_ms : ℤ) := by
    have h64 : config.stale_quote_threshold_ms < 2 ^ 64 :=
      lt_trans hfin (by norm_num)
    have h63 : config.stale_quote_threshold_ms < 2 ^ 63 :=
      lt_trans hfin (by norm_num)
    unfold u64AsI64
    rw [Nat.mod_eq_of_lt h64, if_pos h63]
  have hlt : u64AsI64 config.stale_quote_threshold_ms < get_staleness_ms quotes nowMs := by
    rw [hstale, hcast]
    unfold i64Max
    have h1 : ((config.stale_quote_threshold_ms : ℕ) : ℤ) < ((2 ^ 63 - 1 : ℕ) : ℤ) := by
      exact_mod_cast hfin
    have h2 : ((2 ^ 63 - 1 : ℕ) : ℤ) = 2 ^ 63 - 1 := by norm_num
    rw [h2] at h1
    exact h1
  unfold check_risk
  rw [hk]
  simp only [Bool.false_eq_true, if_false]
  rw [if_neg (not_lt.mpr hsz), if_pos hlt, hstale]

/-- Witness for C10: no quote ever received, threshold 5000 ms, kill switch
off, size 10 ≤ max 100. -/
theorem claim_C10_witness :
    get_staleness_ms ⟨none, none, none, none, none, none, none, none, 0⟩ 7000 = i64Max ∧
    check_risk ⟨10, 100, 95/100, 95/100, 1/10, 5000⟩ ⟨false, 10, 95/100, 95/100⟩
      ⟨none, none, none, none, none, none, none, none, 0⟩
      7000 .yes 10 (1/2) = .rejected (.staleQuote i64Max 5000) := by
  have h := claim_C10 ⟨10, 100, 95/100, 95/100, 1/10, 5000⟩ ⟨false, 10, 95/100, 95/100⟩
    ⟨none, none, none, none, none, none, none, none, 0⟩ 7000 .yes 10 (1/2) rfl
  exact ⟨h.1, h.2 rfl (by norm_num) (by norm_num) (by norm_num)⟩

/-- Embeds `SignalConfig` (config.rs lines 63-68). -/
structure SignalConfig where
  binance_return_threshold_1s : ℚ
  binance_return_threshold_3s : ℚ
  poly_lag_threshold_ms : ℕ
  min_confidence : ℚ

/-- The reason strings pushed by `SignalService::compute_signal`, one
constructor per `format!` call site, carrying the interpolated numbers. -/
inductive SignalReason where
  | up1s (ret1 : ℚ) (lagMs : ℤ)
  | down1s (ret1 : ℚ) (lagMs : ℤ)
  | up3sConfirm (ret3 : ℚ)
  | down3sConfirm (ret3 : ℚ)
deriving DecidableEq

/-- Embeds `SignalState` (signal.rs lines 8-16). -/
structure SignalState where
  suggested_side : Option TradeSide
  confidence : ℚ
  reasons : List SignalReason
  binance_ret_1s : ℚ
  binance_ret_3s : ℚ
  poly_lag_ms : ℤ

/-- Embeds `SignalService::compute_signal` (signal.rs lines 63-151), as a function of
its inputs: the 1 s and 3 s returns (after the code's `unwrap_or(0.0)`) and
the prediction-market staleness.  The unused 10 s return is elided and the
event emission is outside the computed state. -/
def compute_signal (config : SignalConfig) (ret_1s ret_3s : ℚ)
    (poly_stale_ms : ℤ) : SignalState :=
  let significant_up_1s := ret_1s > config.binance_return_threshold_1s
  let significant_down_1s := ret_1s < -config.binance_return_threshold_1s
  let significant_up_3s := ret_3s > config.binance_return_threshold_3s
  let significant_down_3s := ret_3s < -config.binance_return_threshold_3s
  let poly_lagging := poly_stale_ms > u64AsI64 config.poly_lag_threshold_ms
  let stage1 : ℚ × Option TradeSide × List SignalReason :=
    if significant_up_1s ∧ poly_lagging then
      (0 + 0.5, some TradeSide.yes, [SignalReason.up1s ret_1s poly_stale_ms])
    else if significant_down_1s ∧ poly_lagging then
      (0 + 0.5, some TradeSide.no, [SignalReason.down1s ret_1s poly_stale_ms])
    else (0, none, [])
  let stage2 : ℚ × List SignalReason :=
    if significant_up_3s ∧ stage1.2.1 = some TradeSide.yes then
      (stage1.1 + 0.3, stage1.2.2 ++ [SignalReason.up3sConfirm ret_3s])
    else if significant_down_3s ∧ stage1.2.1 = some TradeSide.no then
      (stage1.1 + 0.3, stage1.2.2 ++ [SignalReason.down3sConfirm ret_3s])
    else (stage1.1, stage1.2.2)
  if stage2.1 < config.min_confidence then
    { suggested_side := none, confidence := 0, reasons := [],
      binance_ret_1s := ret_1s, binance_ret_3s := ret_3s,
      poly_lag_ms := poly_stale_ms }
  else
    { suggested_side := stage1.2.1, confidence := stage2.1, reasons := stage2.2,
      binance_ret_1s := ret_1s, binance_ret_3s := ret_3s,
      poly_lag_ms := poly_stale_ms }

/-- C7.  Whenever the recomputed signal suggests a side, its confidence is at
least `min_confidence`; whenever it suggests no side, its confidence is 0 and
its reason list is empty (any sub-threshold score is cleared). -/
theorem claim_C7 (config : SignalConfig) (ret_1s ret_3s : ℚ) (poly_stale_ms : ℤ) :
    ((compute_signal config ret_1s ret_3s poly_stale_ms).suggested_side ≠ none →
      config.min_confidence ≤
        (compute_signal config ret_1s ret_3s poly_stale_ms).confidence) ∧
    ((compute_signal config ret_1s ret_3s poly_stale_ms).suggested_side = none →
      (compute_signal config ret_1s ret_3s poly_stale_ms).confidence = 0 ∧
      (compute_signal config ret_1s ret_3s poly_stale_ms).reasons = []) := by
  simp only [compute_signal]
  split_ifs <;>
    refine ⟨fun hside => ?_, fun hside => ?_⟩ <;>
    simp_all [not_lt]

/-- Witness for C7 on the spec's scenarios 3 and 4: with `τ1 = 0.001`,
`τ3 = 0.002`, `σ = 500 ms`, `C_min = 0.5`, returns `r1 = 0.0015`,
`r3 = 0.0025`: at staleness 700 ms a side is suggested with confidence
≥ 0.5; at staleness 100 ms no side is suggested, confidence 0, no reasons. -/
theorem claim_C7_witness :
    ((compute_signal ⟨1/1000, 1/500, 500, 1/2⟩ (15/10000) (25/10000)
        700).suggested_side ≠ none ∧
      (1 : ℚ)/2 ≤ (compute_signal ⟨1/1000, 1/500, 500, 1/2⟩ (15/10000) (25/10000)
        700).confidence) ∧
    ((compute_signal ⟨1/1000, 1/500, 500, 1/2⟩ (15/10000) (25/10000)
        100).suggested_side = none ∧
      (compute_signal ⟨1/1000, 1/500, 500, 1/2⟩ (15/10000) (25/10000)
        100).confidence = 0 ∧
      (compute_signal ⟨1/1000, 1/500, 500, 1/2⟩ (15/10000) (25/10000)
        100).reasons = []) := by
  have hside700 : (compute_signal ⟨1/1000, 1/500, 500, 1/2⟩ (15/10000) (25/10000)
      700).suggested_side = some TradeSide.yes := by
    norm_num [compute_signal, u64AsI64]
  have hside100 : (compute_signal ⟨1/1000, 1/500, 500, 1/2⟩ (15/10000) (25/10000)
      100).suggested_side = none := by
    norm_num [compute_signal, u64AsI64]
    simp
  constructor
  · refine ⟨by rw [hside700]; simp, ?_⟩
    exact (claim_C7 ⟨1/1000, 1/500, 500, 1/2⟩ (15/10000) (25/10000) 700).1
      (by rw [hside700]; simp)
  · refine ⟨hside100, ?_⟩
    exact (claim_C7 ⟨1/1000, 1/500, 500, 1/2⟩ (15/10000) (25/10000) 100).2 hside100

/-- Embeds `MarketTokens` (gamma.rs lines 46-55). -/
structure MarketTokens where
  up_token_id : String
  down_token_id : String
  condition_id : String
  market_id : String
  slug : String
  title : String
  start_time : String
  end_date : String

/-- Embeds `ActiveMarket` (polymarket.rs lines 63-73); the target price as an exact
rational. -/
structure ActiveMarket where
  up_token_id : String
  down_token_id : String
  condition_id : String
  slug : String
  title : String
  start_time : String
  end_date : String
  target_price : Option ℚ

/-- The mutation of `PolymarketService::refresh_market_tokens`
(polymarket.rs lines 99-120): every descriptor field is overwritten from the
fetched tokens and `target_price` is reset to `None`. -/
def refresh_market_tokens (_m : ActiveMarket) (t : MarketTokens) : ActiveMarket :=
  { up_token_id := t.up_token_id
    down_token_id := t.down_token_id
    condition_id := t.condition_id
    slug := t.slug
    title := t.title
    start_time := t.start_time
    end_date := t.end_date
    target_price := none }

/-- The market-change block of `PolymarketService::run_connection`
(polymarket.rs lines 283-299): the same wholesale replacement, with
`target_price` reset for the new window. -/
def market_change_update (_m : ActiveMarket) (t : MarketTokens) : ActiveMarket :=
  { up_token_id := t.up_token_id
    down_token_id := t.down_token_id
    condition_id := t.condition_id
    slug := t.slug
    title := t.title
    start_time := t.start_time
    end_date := t.end_date
    target_price := none }

/-- Embeds `PolymarketService::set_target_price` (polymarket.rs lines 123-129): only
sets when no target is present. -/
def set_target_price (m : ActiveMarket) (price : ℚ) : ActiveMarket :=
  if m.target_price = none then { m with target_price := some price } else m

/-- Embeds `PolymarketService::force_set_target_price` (polymarket.rs lines 132-136):
overwrites unconditionally (used by the scraper). -/
def force_set_target_price (m : ActiveMarket) (price : ℚ) : ActiveMarket :=
  { m with target_price := some price }

/-- Embeds `PolymarketService::clear_target_price` (polymarket.rs lines 139-142). -/
def clear_target_price (m : ActiveMarket) : ActiveMarket :=
  { m with target_price := none }

/-- The operations that touch the active-market descriptor. -/
inductive MarketOp where
  | replace (t : MarketTokens)
  | marketChange (t : MarketTokens)
  | setTarget (p : ℚ)
  | forceSetTarget (p : ℚ)
  | clearTarget

/-- Dispatch of the descriptor-mutating operations. -/
def apply_market_op (m : ActiveMarket) : MarketOp → ActiveMarket
  | .replace t => refresh_market_tokens m t
  | .marketChange t => market_change_update m t
  | .setTarget p => set_target_price m p
  | .forceSetTarget p => force_set_target_price m p
  | .clearTarget => clear_target_price m

/-- C8.  The target price is `None` immediately after either active-market
replacement site; the ordinary setter never overwrites an existing value;
force-set always overwrites; and force-set is the only operation that can
change a present target price to a different present value (the replacements
and the window-change clear reset it to `None` rather than overwrite it). -/
theorem claim_C8 (m : ActiveMarket) (t : MarketTokens) (p v w : ℚ) (op : MarketOp) :
    (refresh_market_tokens m t).target_price = none ∧
    (market_change_update m t).target_price = none ∧
    (m.target_price = some v → set_target_price m p = m) ∧
    (force_set_target_price m p).target_price = some p ∧
    (m.target_price = some v → (apply_market_op m op).target_price = some w →
      w ≠ v → ∃ q : ℚ, op = MarketOp.forceSetTarget q) := by
  refine ⟨rfl, rfl, ?_, rfl, ?_⟩
  · intro hv
    unfold set_target_price
    rw [if_neg (by simp [hv])]
  · intro hv hw hne
    cases op with
    | replace t2 => cases hw
    | marketChange t2 => cases hw
    | setTarget p2 =>
      have hset : set_target_price m p2 = m := by
        unfold set_target_price
        rw [if_neg (by simp [hv])]
      rw [show apply_market_op m (MarketOp.setTarget p2) = set_target_price m p2
        from rfl, hset, hv] at hw
      cases hw
      exact absurd rfl hne
    | forceSetTarget q => exact ⟨q, rfl⟩
    | clearTarget => cases hw

/-- Witness for C8 at a concrete descriptor with target 5: replacement clears,
the setter leaves 5 in place, force-set overwrites to 3, and the
only-force-overwrites clause fires at the force-set operation. -/
theorem claim_C8_witness :
    (refresh_market_tokens ⟨"u", "d", "c", "s", "t", "st", "en", some 5⟩
      ⟨"u2", "d2", "c2", "m2", "s2", "t2", "st2", "en2"⟩).target_price = none ∧
    (market_change_update ⟨"u", "d", "c", "s", "t", "st", "en", some 5⟩
      ⟨"u2", "d2", "c2", "m2", "s2", "t2", "st2", "en2"⟩).target_price = none ∧
    set_target_price ⟨"u", "d", "c", "s", "t", "st", "en", some 5⟩ 7 =
      ⟨"u", "d", "c", "s", "t", "st", "en", some 5⟩ ∧
    (force_set_target_price ⟨"u", "d", "c", "s", "t", "st", "en", some 5⟩
      3).target_price = some 3 ∧
    ∃ q : ℚ, MarketOp.forceSetTarget (3 : ℚ) = MarketOp.forceSetTarget q := by
  have h7 := claim_C8 ⟨"u", "d", "c", "s", "t", "st", "en", some 5⟩
    ⟨"u2", "d2", "c2", "m2", "s2", "t2", "st2", "en2"⟩ 7 5 3
    (MarketOp.forceSetTarget 3)
  have h3 := claim_C8 ⟨"u", "d", "c", "s", "t", "st", "en", some 5⟩
    ⟨"u2", "d2", "c2", "m2", "s2", "t2", "st2", "en2"⟩ 3 5 3
    (MarketOp.forceSetTarget 3)
  exact ⟨h7.1, h7.2.1, h7.2.2.1 rfl, h3.2.2.2.1,
    h7.2.2.2.2 rfl rfl (by norm_num)⟩

/-- The literal pattern `"openPrice":` searched by
`extract_open_price_from_embedded_json` (price_scraper.rs line 63). -/
def openPricePattern : List Char := ("\"openPrice\":").toList

/-- The value terminators of the scan (price_scraper.rs line 70): comma,
closing brace, space. -/
def isStopChar (c : Char) : Bool :=
  c = ',' || c = Char.ofNat 125 || c = ' '

/-- Rust `str::find` for a literal pattern: index of its first occurrence. -/
def findOcc (pat : List Char) : List Char → Option ℕ
  | [] => if pat.isEmpty then some 0 else none
  | c :: rest =>
    if pat.isPrefixOf (c :: rest) then some 0
    else (findOcc pat rest).map (· + 1)

/-- Decimal digits to a natural number. -/
def digitsToNat (ds : List Char) : ℕ :=
  ds.foldl (fun n c => 10 * n + (c.toNat - 48)) 0

/-- Rust `str::trim`. -/
def trimChars (l : List Char) : List Char :=
  ((l.dropWhile Char.isWhitespace).reverse.dropWhile Char.isWhitespace).reverse

/-- Leading sign of a numeric literal: `(negative?, rest)`. -/
def splitSign : List Char → Bool × List Char
  | '+' :: rest => (false, rest)
  | '-' :: rest => (true, rest)
  | l => (false, l)

/-- The rational value of the parsed decimal float `± ip.fp × 10^e`, built
with natural-number arithmetic and a single `Rat.divInt`. -/
def ratFromParts (neg : Bool) (ip fp : List Char) (e : ℤ) : ℚ :=
  let m : ℕ := digitsToNat ip * 10 ^ fp.length + digitsToNat fp
  let num : ℕ := m * 10 ^ e.toNat
  let den : ℕ := 10 ^ fp.length * 10 ^ (-e).toNat
  Rat.divInt (if neg then -(num : ℤ) else (num : ℤ)) (den : ℤ)

/-- The optional exponent suffix of a float literal; requires the rest of the
input to be consumed. -/
def parseExpPart (neg : Bool) (ip fp : List Char) : List Char → Option ℚ
  | [] => some (ratFromParts neg ip fp 0)
  | c :: rest =>
    if c = 'e' ∨ c = 'E' then
      let (eneg, rest2) := splitSign rest
      let eds := rest2.takeWhile Char.isDigit
      let rest3 := rest2.dropWhile Char.isDigit
      if eds.isEmpty ∨ ¬ rest3.isEmpty then none
      else some (ratFromParts neg ip fp
        (if eneg then -(digitsToNat eds : ℤ) else (digitsToNat eds : ℤ)))
    else none

/-- Embeds `f64::from_str` (the `value_str.parse::<f64>()` of price_scraper.rs line
74) restricted to finite decimal forms: optional sign, digits with optional
fraction, optional decimal exponent, and the whole input consumed.  The exact
value is kept as a rational; `inf`/`NaN` inputs are modelled as parse
failures — they fall outside the scraper's sanity range either way, so the
scan's result is unchanged. -/
def parseF64 (s : List Char) : Option ℚ :=
  let (neg, r1) := splitSign s
  let ip := r1.takeWhile Char.isDigit
  let r2 := r1.dropWhile Char.isDigit
  match r2 with
  | '.' :: r3 =>
    let fp := r3.takeWhile Char.isDigit
    let r4 := r3.dropWhile Char.isDigit
    if ip.isEmpty ∧ fp.isEmpty then none
    else parseExpPart neg ip fp r4
  | _ => if ip.isEmpty then none else parseExpPart neg ip [] r2

/-- One iteration of the scan of `extract_open_price_from_embedded_json`
(price_scraper.rs lines 67-81), after the pattern was found at `pos`: the raw
value slice (up to the first stop character, or the end of input) and the
remaining input (from the stop character on, where the next search resumes). -/
def scanStep (l : List Char) (pos : ℕ) : List Char × List Char :=
  let afterPat := l.drop (pos + openPricePattern.length)
  let valLen := match afterPat.findIdx? (fun c => isStopChar c) with
    | some i => i
    | none => afterPat.length
  (afterPat.take valLen, afterPat.drop valLen)

/-- All raw value slices visited by the scan loop, in order.  The fuel only
bounds the recursion: each iteration consumes at least the pattern, so
`l.length` steps always suffice. -/
def scanSlices (fuel : ℕ) (l : List Char) : List (List Char) :=
  match fuel with
  | 0 => []
  | fuel + 1 =>
    match findOcc openPricePattern l with
    | none => []
    | some pos => (scanStep l pos).1 :: scanSlices fuel (scanStep l pos).2

/-- The loop of `extract_open_price_from_embedded_json` (price_scraper.rs
lines 62-84), carrying `last_open_price`: each occurrence's value slice is
trimmed, parsed, and remembered when it parses inside the sanity range
`[10 000, 500 000]`. -/
def extractGo (fuel : ℕ) (lastOpen : Option ℚ) (l : List Char) : Option ℚ :=
  match fuel with
  | 0 => lastOpen
  | fuel + 1 =>
    match findOcc openPricePattern l with
    | none => lastOpen
    | some pos =>
      extractGo fuel
        (match parseF64 (trimChars (scanStep l pos).1) with
          | some p => if 10000 ≤ p ∧ p ≤ 500000 then some p else lastOpen
          | none => lastOpen)
        (scanStep l pos).2

/-- Embeds `extract_open_price_from_embedded_json` (price_scraper.rs lines 62-84). -/
def extract_open_price_from_embedded_json (html : String) : Option ℚ :=
  extractGo html.data.length none html.data

/-- The parsed values of all scanned `"openPrice":` occurrences, in order. -/
def openPriceValues (html : String) : List ℚ :=
  (scanSlices html.data.length html.data).filterMap
    (fun s => parseF64 (trimChars s))

/-- Rewrites `getLast?` of a cons, as a match on the tail's last element. -/
theorem getLast?_cons_eq {α : Type} (a : α) (l : List α) :
    (a :: l).getLast? = match l.getLast? with
      | some x => some x
      | none => some a := by
  cases l with
  | nil => rfl
  | cons b t =>
    rw [List.getLast?_cons_cons]
    cases h : (b :: t).getLast? with
    | some x => rfl
    | none => exact absurd (List.getLast?_eq_none_iff.mp h) (by simp)

/-- Unfolding equation of `scanSlices` when the pattern occurs. -/
theorem scanSlices_succ_some (fuel : ℕ) (l : List Char) (pos : ℕ)
    (h : findOcc openPricePattern l = some pos) :
    scanSlices (fuel + 1) l =
      (scanStep l pos).1 :: scanSlices fuel (scanStep l pos).2 := by
  conv_lhs => unfold scanSlices
  rw [h]

/-- Unfolding equation of `extractGo` when the pattern occurs. -/
theorem extractGo_succ_some (fuel : ℕ) (acc : Option ℚ) (l : List Char) (pos : ℕ)
    (h : findOcc openPricePattern l = some pos) :
    extractGo (fuel + 1) acc l =
      extractGo fuel
        (match parseF64 (trimChars (scanStep l pos).1) with
          | some p => if 10000 ≤ p ∧ p ≤ 500000 then some p else acc
          | none => acc)
        (scanStep l pos).2 := by
  conv_lhs => unfold extractGo
  rw [h]

/-- The accumulator form of the scan loop computes "the last parsed in-range
value among the scanned occurrences, or the accumulator if there is none". -/
theorem extractGo_eq_scan (fuel : ℕ) :
    ∀ (l : List Char) (acc : Option ℚ),
      extractGo fuel acc l =
        match (((scanSlices fuel l).filterMap (fun s => parseF64 (trimChars s))).filter
            (fun p => decide (10000 ≤ p ∧ p ≤ 500000))).getLast? with
        | some p => some p
        | none => acc := by
  induction fuel with
  | zero =>
    intro l acc
    rfl
  | succ fuel ih =>
    intro l acc
    cases hocc : findOcc openPricePattern l with
    | none =>
      have h1 : extractGo (fuel + 1) acc l = acc := by
        conv_lhs => unfold extractGo
        rw [hocc]
      have h2 : scanSlices (fuel + 1) l = [] := by
        conv_lhs => unfold scanSlices
        rw [hocc]
      rw [h1, h2]
      rfl
    | some pos =>
      rw [extractGo_succ_some fuel acc l pos hocc,
        scanSlices_succ_some fuel l pos hocc, ih, List.filterMap_cons]
      cases hp : parseF64 (trimChars (scanStep l pos).1) with
      | none => rfl
      | some p =>
        rw [List.filter_cons]
        by_cases hr : 10000 ≤ p ∧ p ≤ 500000
        · rw [if_pos (by exact decide_eq_true hr), getLast?_cons_eq]
          cases hF : (((scanSlices fuel (scanStep l pos).2).filterMap
              (fun s => parseF64 (trimChars s))).filter
              (fun p => decide (10000 ≤ p ∧ p ≤ 500000))).getLast? with
          | some x => rfl
          | none =>
            exact if_pos hr
        · rw [if_neg (by simpa using hr)]
          cases hF : (((scanSlices fuel (scanStep l pos).2).filterMap
              (fun s => parseF64 (trimChars s))).filter
              (fun p => decide (10000 ≤ p ∧ p ≤ 500000))).getLast? with
          | some x => rfl
          | none =>
            exact if_neg hr

/-- C9.  For every HTML input, the embedded-JSON extraction returns the value
of the last scanned `"openPrice":` occurrence that parses inside the sanity
range `[10 000, 500 000]`, and `none` when no occurrence is in range.  On a
fixture whose in-range occurrences end with `"openPrice":77490.31` it returns
77490.31 (= 7749031/100), and on a fixture whose values are all below 10 000
it returns `none`. -/
theorem claim_C9 :
    (∀ html : String,
      extract_open_price_from_embedded_json html =
        ((openPriceValues html).filter
          (fun p => decide (10000 ≤ p ∧ p ≤ 500000))).getLast?) ∧
    extract_open_price_from_embedded_json
      "w:\"openPrice\":77423.78,x \"openPrice\":77572.06425014541,y \"openPrice\":77490.31" =
      some (mkRat 7749031 100) ∧
    (mkRat 7749031 100 : ℚ) = 7749031 / 100 ∧
    extract_open_price_from_embedded_json
      "\"openPrice\":0.52,\"openPrice\":9999.99,end" = none := by
  refine ⟨?_, by decide, ?_, by decide⟩
  · intro html
    unfold extract_open_price_from_embedded_json openPriceValues
    rw [extractGo_eq_scan]
    cases (((scanSlices html.data.length html.data).filterMap
        (fun s => parseF64 (trimChars s))).filter
        (fun p => decide (10000 ≤ p ∧ p ≤ 500000))).getLast? <;> rfl
  · rw [Rat.mkRat_eq_divInt, Rat.divInt_eq_div]
    norm_num
